import Mathlib

/-!
Verification development for the HAL retrieval-augmented-generation assistant.

The Python sources are shallowly embedded here:
* text values are `List Char` (Python `str`), named `Str` below;
* external collaborators (the mistune Markdown renderer, the spaCy parser,
  the sentence-transformers embedding model, the Qdrant client, the argon2
  verifier, the httpx stream, the wall clock) appear as explicit function
  parameters or as oracle inputs, exactly at their call sites;
* every embedded definition carries a comment naming the source function
  and lines it mirrors.
-/

namespace HAL

/-- Python strings are modelled as lists of characters. -/
abbrev Str := List Char

/-- The characters Python's `str.strip()` removes. -/
def pyIsSpace (c : Char) : Bool :=
  c = ' ' || c = '\t' || c = '\n' || c = '\r' || c = '\x0b' || c = '\x0c'

/-- Python `s.strip()`: drop whitespace from both ends. -/
def pyStrip (s : Str) : Str :=
  ((s.dropWhile pyIsSpace).reverse.dropWhile pyIsSpace).reverse

/-- Index of the last character satisfying `p`, if any (`rfind`-style search). -/
def lastIdxWhere (p : Char → Bool) : Str → Option Nat
  | [] => none
  | c :: cs =>
    match lastIdxWhere p cs with
    | some i => some (i + 1)
    | none => if p c then some 0 else none

/-- Index of the last occurrence of character `ch` (Python `s.rfind(ch)`,
with `none` standing for the return value `-1`). -/
def lastIdxOf (ch : Char) (s : Str) : Option Nat :=
  lastIdxWhere (fun c => c = ch) s

/-- Python slice `s[:i]` for a possibly negative `i` (clamped as Python does). -/
def pySliceTo (s : Str) (i : Int) : Str :=
  if 0 ≤ i then s.take i.toNat else s.take (s.length - min s.length (-i).toNat)

/-- Python slice `s[i:]` for a possibly negative `i` (clamped as Python does). -/
def pySliceFrom (s : Str) (i : Int) : Str :=
  if 0 ≤ i then s.drop i.toNat else s.drop (s.length - min s.length (-i).toNat)

/-- Python `s.split("\n\n")`: non-overlapping left-to-right split on a
blank-line separator. -/
def splitParas : Str → List Str
  | [] => [[]]
  | '\n' :: '\n' :: rest => [] :: splitParas rest
  | c :: rest => (splitParas rest).modifyHead (c :: ·)

/-- Helper for `pySplitWs`: accumulates the current (reversed) word. -/
def splitWsAux : Str → Str → List Str
  | [], acc => if acc.isEmpty then [] else [acc.reverse]
  | c :: cs, acc =>
    if pyIsSpace c then
      if acc.isEmpty then splitWsAux cs [] else acc.reverse :: splitWsAux cs []
    else splitWsAux cs (c :: acc)

/-- Python `s.split()` with no argument: split on whitespace runs, no empties. -/
def pySplitWs (s : Str) : List Str := splitWsAux s []

/-- Python `sub in s` for strings (substring test). -/
def containsSub (sub : Str) : Str → Bool
  | [] => sub.isEmpty
  | c :: cs => sub.isPrefixOf (c :: cs) || containsSub sub cs

/-- Python `s.lower()` (ASCII case folding suffices for the denylist titles). -/
def toLowerStr (s : Str) : Str := s.map Char.toLower

/-! ## Chunker: `build_db.process_section` (build_db.py lines 73-133)

`mistune_md` is an external library; it enters the model as the `render`
function parameter of `process_section`, standing for line 92's
`mistune_md(section)`. -/

/-- A chunk dict as built by `process_section`; `sec` models the `"section"`
key (`section` is a Lean keyword), `source` the `"source"` key. -/
structure Chunk where
  text : Str
  sec : Str
  source : Str
deriving DecidableEq

/-- build_db.py line 35. -/
def MIN_LENGTH : Nat := 100

/-- The `section` payload `f"# {section_title}"` (build_db.py line 106). -/
def secOf (title : Str) : Str := '#' :: ' ' :: title

/-- build_db.py line 102: `mid = para[:1000].rfind(" ") or 1000`.
`rfind` yields -1 when no space occurs, which is truthy, so only a result
of exactly 0 is replaced by 1000. -/
def splitMid (para : Str) : Int :=
  match lastIdxOf ' ' (para.take 1000) with
  | none => -1
  | some i => if i = 0 then 1000 else (i : Int)

/-- The `while len(para) >= MIN_LENGTH` loop of build_db.py lines 100-132,
fuelled for computability; each iteration of the `> 1000` branch strictly
shrinks `para`, so `para.length + 1` units of fuel always suffice
(`procParaFuel_congr`). -/
def procParaFuel (title src : Str) : Nat → List Chunk → Str → List Chunk
  | 0, chunks, _ => chunks
  | fuel + 1, chunks, para =>
    if MIN_LENGTH ≤ para.length then
      if 1000 < para.length then
        let mid := splitMid para
        procParaFuel title src fuel
          (chunks ++ [⟨pySliceTo para mid, secOf title, src⟩])
          (pyStrip (pySliceFrom para mid))
      else
        match chunks.getLast? with
        | some last =>
          if last.text.length < 600 then
            let newText := last.text ++ ' ' :: para
            if 1000 < newText.length then
              chunks ++ [⟨para, secOf title, src⟩]
            else
              chunks.dropLast ++ [⟨newText, last.sec, last.source⟩]
          else chunks ++ [⟨para, secOf title, src⟩]
        | none => chunks ++ [⟨para, secOf title, src⟩]
    else chunks

/-- The per-paragraph chunk-packing loop (build_db.py lines 100-132). -/
def procPara (title src : Str) (chunks : List Chunk) (para : Str) : List Chunk :=
  procParaFuel title src (para.length + 1) chunks para

/-- The body of the `for para in paras` loop (build_db.py lines 97-132):
strip the paragraph, drop it when it is under `MIN_LENGTH` or starts with a
list marker, otherwise run the packing loop. -/
def paraStep (title src : Str) (chunks : List Chunk) (para0 : Str) : List Chunk :=
  let para := pyStrip para0
  if MIN_LENGTH ≤ para.length ∧ ¬ ['-', ' '].isPrefixOf para then
    procPara title src chunks para
  else chunks

/-- `process_section` (build_db.py lines 73-133).  `render` stands for the
external `mistune_md` call on line 92; everything else follows the source:
title from the first line, denylist skip, paragraph split on blank lines,
minimum-length and list-item filters, then the packing loop. -/
def process_section (render : Str → Str) (sectionText fp : Str)
    (skipTitles : List Str) : List Chunk :=
  let sectionTitle := pyStrip (sectionText.takeWhile (fun c => c ≠ '\n'))
  if skipTitles.contains (toLowerStr sectionTitle) then []
  else
    let proseText := pyStrip (render sectionText)
    if proseText.isEmpty then []
    else (splitParas proseText).foldl (paraStep sectionTitle fp) []

/-- The split point the specification describes for an oversized paragraph:
the last whitespace at or before the 1000-character mark.  This definition
follows the spec's words, for comparison with the source's `splitMid`. -/
def claimedSplitText (para : Str) : Option Str :=
  (lastIdxWhere pyIsSpace (para.take 1000)).map (fun i => para.take i)

/-- The split text the code actually emits, written as a case description:
`para[:r]` for a last-space index `r ≥ 1`, `para[:1000]` when the only
space sits at index 0, and `para[:-1]` (all but the final character) when
the first 1000 characters contain no space. -/
def describedSplitText (para : Str) : Str :=
  match lastIdxOf ' ' (para.take 1000) with
  | none => para.dropLast
  | some i => if i = 0 then para.take 1000 else para.take i

/-! ## Quality scorer: `build_db.score_chunk` (build_db.py lines 212-270)

spaCy is external, so the parse result enters as a feature record: sentence
count, alphabetic-token count, NOUN/PROPN count, VERB count, punctuation-token
count, text length and presence of `'|'`.  Scores are `ℚ` (the Python float
literals 0.1-0.4 are exact decimals; ordering and bounds are unaffected). -/

/-- The linguistic features `score_chunk` reads off the spaCy doc and the
chunk text. -/
structure ChunkFeatures where
  sentences : Nat
  words : Nat
  nouns : Nat
  verbs : Nat
  punct : Nat
  textLen : Nat
  hasPipe : Bool
deriving DecidableEq

/-- build_db.py lines 230-236: base score from sentence count. -/
def sentScore (n : Nat) : ℚ :=
  if 3 ≤ n then 0.3 else if n = 2 then 0.2 else if n = 1 then 0.1 else 0

/-- build_db.py lines 239-245: content density from alphabetic tokens. -/
def wordScore (n : Nat) : ℚ :=
  if 50 ≤ n then 0.3 else if 20 ≤ n then 0.2 else if 10 ≤ n then 0.1 else 0

/-- build_db.py lines 248-255: semantic richness from nouns and verbs. -/
def nvScore (nouns verbs : Nat) : ℚ :=
  if 10 ≤ nouns ∧ 5 ≤ verbs then 0.4
  else if 5 ≤ nouns ∧ 2 ≤ verbs then 0.3
  else if 2 ≤ nouns then 0.2 else 0

/-- build_db.py lines 258-259: length bonus for chunks over 600 chars. -/
def lenBonus (l : Nat) : ℚ := if 600 < l then 0.1 else 0

/-- build_db.py line 263: `punct / max(words, 1) > 0.3`. -/
def punctHeavy (punct words : Nat) : Prop :=
  (0.3 : ℚ) < (punct : ℚ) / ((max words 1 : Nat) : ℚ)

instance (p w : Nat) : Decidable (punctHeavy p w) :=
  inferInstanceAs (Decidable (_ < _))

/-- Sum of the additive score components (build_db.py lines 227-259). -/
def rawScore (f : ChunkFeatures) : ℚ :=
  sentScore f.sentences + wordScore f.words + nvScore f.nouns f.verbs
    + lenBonus f.textLen

/-- After the punctuation penalty (build_db.py lines 262-264). -/
def afterPunct (f : ChunkFeatures) : ℚ :=
  if punctHeavy f.punct f.words then rawScore f - 0.1 else rawScore f

/-- After the table-like cap (build_db.py lines 265-266). -/
def afterPipe (f : ChunkFeatures) : ℚ :=
  if f.hasPipe = true ∧ f.words < 20 then min (afterPunct f) 0.3 else afterPunct f

/-- After the tiny-and-sparse cap (build_db.py lines 267-268). -/
def afterSparse (f : ChunkFeatures) : ℚ :=
  if f.textLen < 100 ∧ f.words < 10 then min (afterPipe f) 0.2 else afterPipe f

/-- `score_chunk` on successfully parsed features: clamp to [0,1]
(build_db.py line 270). -/
def score_feats (f : ChunkFeatures) : ℚ := min (max (afterSparse f) 0) 1

/-- `score_chunk` (build_db.py lines 212-270); `none` is the spaCy failure
path of lines 222-226, returning 0.0. -/
def score_chunk : Option ChunkFeatures → ℚ
  | none => 0
  | some f => score_feats f

/-! ## Index synchronizer: `build_db.update_vector_store`
(build_db.py lines 294-439)

Qdrant is external: the vector store is a list of points keyed by `id`, and
`upsert` replaces any point with the same id.  Vector payloads keep only the
`source` field, the single payload component any claim mentions.  `uuid4()`
is modelled by an injective id supply `idBase, idBase+1, ...`; the filesystem
walk is the `files` list (path, mtime); `process_files` on one file is the
oracle `chunksOf`. -/

/-- One value of the `state.json` mapping: `{"mtime": ..., "chunk_ids": [...]}`. -/
structure FileEntry where
  mtime : Int
  chunk_ids : List Nat
deriving DecidableEq

/-- The `state.json` mapping, as an insertion-ordered association list
(Python dict / JSON object). -/
abbrev StateMap := List (String × FileEntry)

/-- Dictionary lookup on a `StateMap`. -/
def lookupState (st : StateMap) (fp : String) : Option FileEntry :=
  (st.find? (fun e => e.1 == fp)).map (fun e => e.2)

/-- A vector-store record; payload reduced to its `source` field. -/
structure VPoint where
  id : Nat
  source : String
deriving DecidableEq

/-- A chunk as produced by `process_files`: the `source` key is the file the
chunk came from (`text` and `section` do not enter the synchronizer claims). -/
structure BChunk where
  source : String
deriving DecidableEq

/-- build_db.py line 407: `current_state[chunk["source"]]["chunk_ids"].append(point_id)`. -/
def appendChunkId (st : StateMap) (src : String) (pid : Nat) : StateMap :=
  st.map (fun e =>
    if e.1 == src then (e.1, ⟨e.2.mtime, e.2.chunk_ids ++ [pid]⟩) else e)

/-- build_db.py line 411: `range(0, len(points), batch_size)` slicing with
`batch_size = 1000`; fuelled for computability (`pts.length` steps suffice). -/
def toBatchesFuel : Nat → List VPoint → List (List VPoint)
  | 0, _ => []
  | _, [] => []
  | fuel + 1, p :: rest => ((p :: rest).take 1000) :: toBatchesFuel fuel ((p :: rest).drop 1000)

/-- The batches one pass of the inner loop at build_db.py lines 411-425 sends. -/
def toBatches (pts : List VPoint) : List (List VPoint) := toBatchesFuel pts.length pts

/-- Qdrant `upsert` of a single point: replace any record with the same id. -/
def upsertPoint (store : List VPoint) (p : VPoint) : List VPoint :=
  store.filter (fun q => q.id ≠ p.id) ++ [p]

/-- Qdrant `client.upsert` with a batch of points. -/
def applyBatch (store : List VPoint) (pts : List VPoint) : List VPoint :=
  pts.foldl upsertPoint store

/-- The record ids carrying `src` as payload `source` in the store. -/
def sourceIds (store : List VPoint) (src : String) : List Nat :=
  (store.filter (fun p => p.source == src)).map (fun p => p.id)

/-- The observable outcome of one `update_vector_store` run. -/
structure RunResult where
  stateFile : Option StateMap
  store : List VPoint
  upsertCalls : List (List VPoint)
deriving DecidableEq

/-- `update_vector_store` (build_db.py lines 294-439).

* lines 307-316: load `prev_state` from `state.json` (`prevFile`); when the
  file is absent and the collection exists, the collection is reset;
* lines 318-327: build `current_state` from the walked `files`, each with
  empty `chunk_ids`;
* lines 341-351: delete the chunk ids of files present in `prev_state` but
  not in `current_state`;
* lines 353-358: with no corpus files, persist the empty `current_state`;
* lines 362-369: `to_process` by mtime comparison; "No changes detected."
  returns without touching `state.json`;
* lines 371-374: no surviving chunks also returns without touching it;
* lines 391-431: build one point per chunk with a fresh id, append the id to
  `current_state`, and — exactly as in the source, where the batching loop is
  indented inside the per-chunk loop — send the batches of the points built
  so far after every single chunk;
* lines 433-436: persist `current_state`. -/
def update_vector_store (prevFile : Option StateMap) (collExists : Bool)
    (store0 : List VPoint) (files : List (String × Int))
    (chunksOf : String → List BChunk) (idBase : Nat) : RunResult :=
  let prevState : StateMap := prevFile.getD []
  let store1 : List VPoint := if prevFile.isNone && collExists then [] else store0
  let currentState : StateMap := files.map (fun fm => (fm.1, ⟨fm.2, []⟩))
  let deletedIds : List Nat :=
    ((prevState.filter (fun e => !(files.any (fun fm => fm.1 == e.1)))).map
      (fun e => e.2.chunk_ids)).flatten
  let store2 := store1.filter (fun p => !(deletedIds.contains p.id))
  if files.isEmpty then ⟨some currentState, store2, []⟩
  else
    let toProcess := files.filter (fun fm =>
      match lookupState prevState fm.1 with
      | none => true
      | some e => e.mtime != fm.2)
    if toProcess.isEmpty then ⟨prevFile, store2, []⟩
    else
      let newChunks := (toProcess.map (fun fm => chunksOf fm.1)).flatten
      if newChunks.isEmpty then ⟨prevFile, store2, []⟩
      else
        let r := newChunks.foldl
          (fun (acc : List VPoint × StateMap × List (List VPoint)) chunk =>
            let pts := acc.1 ++ [⟨idBase + acc.1.length, chunk.source⟩]
            (pts, appendChunkId acc.2.1 chunk.source (idBase + acc.1.length),
              acc.2.2 ++ toBatches pts))
          ([], currentState, [])
        ⟨some r.2.1, r.2.2.foldl applyBatch store2, r.2.2⟩

/-! ## Streaming handler: `hal.stream_response` (hal.py lines 185-272)

The httpx SSE stream is external; it enters as a list of parsed lines: a
`data:` line whose JSON delta carries `content` (possibly empty), the
`data: [DONE]` sentinel, or any other line.  A connection failure or timeout
(the `except` at hal.py line 239) is modelled by an optional error string:
the lines before it were processed, then the handler runs the error branch.
The trailing `stats` message (hal.py lines 262-272) has type `stats`, not
`query_response`, so it does not appear among `queryMsgs`. -/

/-- One line of the inference-service stream, after hal.py lines 208-212's
prefix stripping and JSON decoding. -/
inductive SSELine where
  | data (content : Str)
  | done
  | other
deriving DecidableEq

/-- A `query_response` WebSocket message: `{content, done}`. -/
structure QMsg where
  content : Str
  done : Bool
deriving DecidableEq

/-- One iteration of the `async for chunk in response.aiter_lines()` loop
(hal.py lines 207-238), threading (messages sent so far, accumulated answer). -/
def streamStep : List QMsg × Str → SSELine → List QMsg × Str
  | (msgs, ans), .data c => if c.isEmpty then (msgs, ans) else (msgs ++ [⟨c, false⟩], ans ++ c)
  | (msgs, ans), .done => (msgs ++ [⟨[], true⟩], ans)
  | (msgs, ans), .other => (msgs, ans)

/-- The `query_response` messages the loop emits for a line list. -/
def emitMsgs : List SSELine → List QMsg
  | [] => []
  | .data c :: rest => (if c.isEmpty then [] else [⟨c, false⟩]) ++ emitMsgs rest
  | .done :: rest => ⟨[], true⟩ :: emitMsgs rest
  | .other :: rest => emitMsgs rest

/-- Concatenation, in arrival order, of all streamed content fragments. -/
def concatData (lines : List SSELine) : Str :=
  (lines.filterMap (fun l => match l with
    | .data c => some c
    | _ => none)).flatten

/-- hal.py line 240: `f"Error: vLLM connection failed: {e}"`. -/
def errText (e : Str) : Str := "Error: vLLM connection failed: ".data ++ e

/-- What one `stream_response` call sends and persists. -/
structure StreamResult where
  queryMsgs : List QMsg
  history : List Str
deriving DecidableEq

/-- `stream_response` (hal.py lines 185-259): process the stream lines; on a
connection failure (`failure = some e`) append the error message with
`done=True`; in every case fall through to `add_to_history(query, answer, ...)`
whose record content is `f"Q: {query}\nA: {answer}"` (retrieval.py line 102). -/
def stream_response (lines : List SSELine) (failure : Option Str)
    (query : Str) : StreamResult :=
  let acc := lines.foldl streamStep ([], [])
  let msgs := match failure with
    | some e => acc.1 ++ [⟨errText e, true⟩]
    | none => acc.1
  ⟨msgs, ["Q: ".data ++ query ++ "\nA: ".data ++ acc.2]⟩

/-! ## Fact extraction finalization: `hal_facts.extract_user_facts`
(hal_facts.py lines 120-138) and the storing guard (hal.py lines 257-259)

The rule cascade (hal_facts.py lines 48-118) runs on spaCy parses, so its
output enters as the `facts` list; every `facts.append` in the cascade
produces an f-string beginning with `"User "`.  The suppression check at
lines 122-131 re-parses fact strings for proper nouns; that external call is
the oracle `hasPropn`. -/

/-- First-seen-order deduplication with the `seen` set
(hal_facts.py lines 120-134). -/
def dedupFirstAux (seen : List Str) : List Str → List Str
  | [] => []
  | f :: fs =>
    if seen.contains f then dedupFirstAux seen fs
    else f :: dedupFirstAux (f :: seen) fs

/-- The suppression test of hal_facts.py lines 126-131: `has_is_name` (line
122's scan of the whole fact list, a constant of the loop) conjoined with
the per-fact `"refers as"` and proper-noun checks. -/
def factSuppressed (hasPropn : Str → Bool) (facts : List Str) (f : Str) : Bool :=
  facts.any (fun g => (pySplitWs g).contains "is".data && hasPropn g) &&
    containsSub "refers as".data f && hasPropn f

/-- The deduplicated, suppression-filtered fact list the loop of
hal_facts.py lines 125-134 builds. -/
def keptFacts (hasPropn : Str → Bool) (facts : List Str) : List Str :=
  dedupFirstAux [] (facts.filter (fun f => !factSuppressed hasPropn facts f))

/-- hal_facts.py lines 120-138: suppression of `"refers as"` near-duplicates
when a proper-noun identity fact exists, deduplication, and the `["none"]`
sentinel for an empty result. -/
def finalize_facts (hasPropn : Str → Bool) (facts : List Str) : List Str :=
  if (keptFacts hasPropn facts).isEmpty then ["none".data]
  else keptFacts hasPropn facts

/-- hal.py lines 258-259: `if facts and facts != ["none"]: store_user_facts(...)`. -/
def store_decision (facts : List Str) : Prop :=
  facts ≠ [] ∧ facts ≠ ["none".data]

instance (facts : List Str) : Decidable (store_decision facts) :=
  inferInstanceAs (Decidable (_ ∧ _))

/-! ## Authentication: `db.authenticate` (db.py lines 15-31) and the login
branch of `hal.websocket_endpoint` (hal.py lines 362-372)

MongoDB and argon2 are external: the `find_one` result is the `user?`
parameter and `PasswordHasher.verify` is the oracle `verify`.  The result
records every (hash, password) pair handed to the verifier, so the theorem
can state that a verification happens in all cases. -/

/-- Outcome of `argon2.PasswordHasher.verify`. -/
inductive VerifyResult where
  | ok
  | mismatch
  | invalidHash
deriving DecidableEq

/-- A stored user document: `password` holds the argon2 hash. -/
structure AuthUser where
  username : Str
  password : Str
deriving DecidableEq

/-- db.py line 21: the dummy hash verified when no user is found. -/
def dummy_hash : Str :=
  "$argon2id$v=19$m=65536,t=3,p=4$nxP1H6wz2Ab4kLWH3RA/Cg$7GjWa9MU1SYjUWAxWVWU/GHglXBQWLhHS/hc4Xdth70".data

/-- Result of `authenticate`, with the trace of verifier invocations. -/
structure AuthResult where
  user : Option AuthUser
  verifyCalls : List (Str × Str)
deriving DecidableEq

/-- `authenticate` (db.py lines 15-31): always verify — against the user's
stored hash when found, else against `dummy_hash`; return the user only if
found and the hash matched; any verifier exception yields `None`. -/
def authenticate (user? : Option AuthUser) (verify : Str → Str → VerifyResult)
    (password : Str) : AuthResult :=
  let storedHash := match user? with
    | some u => u.password
    | none => dummy_hash
  match verify storedHash password with
  | .ok => ⟨user?, [(storedHash, password)]⟩
  | .mismatch => ⟨none, [(storedHash, password)]⟩
  | .invalidHash => ⟨none, [(storedHash, password)]⟩

/-- The error text of hal.py line 368, sent for every failed login. -/
def loginFailureText : Str := "Invalid username or password".data

/-- The login branch of `websocket_endpoint` (hal.py lines 336-372): a
successful `authenticate` gets a session, any `None` gets the single
uniform error message. -/
def login_response (user : Option AuthUser) : Str :=
  match user with
  | some _ => "Login successful".data
  | none => loginFailureText

/-! ## Record ids from the wall clock: `retrieval.add_to_history` and
`retrieval.store_user_facts` (retrieval.py lines 101-146)

`int(time.time() * 1000)` is the oracle `clock`, giving the millisecond
reading observed by the n-th id computation.  Qdrant `upsert` with an
existing id replaces the record. -/

/-- A `hal_facts` collection record (vector omitted). -/
structure FactPoint where
  id : Nat
  fact : Str
  session_id : Str
  source_query : Str
deriving DecidableEq

/-- Qdrant single-point upsert into the facts collection. -/
def upsertFact (store : List FactPoint) (p : FactPoint) : List FactPoint :=
  store.filter (fun q => q.id ≠ p.id) ++ [p]

/-- `store_user_facts` (retrieval.py lines 122-146): one upsert per fact,
each with `point_id = int(time.time() * 1000)` — the millisecond clock value
at that loop iteration, `clock n` for the n-th fact. -/
def store_user_facts (clock : Nat → Nat) (facts : List Str)
    (sid sourceQuery : Str) (store : List FactPoint) : List FactPoint :=
  facts.enum.foldl
    (fun st nf => upsertFact st ⟨clock nf.1, nf.2, sid, sourceQuery⟩) store

/-- The point id `add_to_history` assigns (retrieval.py line 104):
`int(time.time() * 1000)`. -/
def add_to_history_id (clockMs : Nat) : Nat := clockMs

/-! ## Concrete run inputs used by the evaluation theorems -/

/-- A previous `state.json`: two indexed files with one chunk each. -/
def c1PrevState : StateMap := [("a.pdf", ⟨1, [7]⟩), ("b.pdf", ⟨2, [8]⟩)]

/-- The vector store matching `c1PrevState`. -/
def c1Store : List VPoint := [⟨7, "a.pdf"⟩, ⟨8, "b.pdf"⟩]

/-- The corpus after `a.pdf` is removed; `b.pdf` is unchanged (same mtime). -/
def c1Files : List (String × Int) := [("b.pdf", 2)]

/-- A run whose only filesystem change is the removal of `a.pdf`. -/
def c1Run : RunResult :=
  update_vector_store (some c1PrevState) true c1Store c1Files (fun _ => []) 100

/-- A first run over one new file that yields two surviving chunks. -/
def c2Run : RunResult :=
  update_vector_store (some []) true [] [("a.pdf", 5)]
    (fun _ => [⟨"a.pdf"⟩, ⟨"a.pdf"⟩]) 0

/-- A paragraph whose only space sits at index 0 (length 1001). -/
def c3Para : Str := ' ' :: List.replicate 1000 'a'

/-- An oversized paragraph with no space at all (length 1001). -/
def c3wPara : Str := List.replicate 1001 'a'

/-- Rendered prose whose single paragraph has its last window space at
index 2 and then 1100 unbroken characters (length 1105). -/
def c4Prose : Str := "ab cd".data ++ List.replicate 1100 'x'

/-- A renderer (standing for `mistune_md`) producing `c4Prose`. -/
def c4Render : Str → Str := fun _ => c4Prose

/-! ## Theorems -/

/-- C1: the spec's state/store consistency invariant — every state entry's
`chunk_ids` matches the record ids carrying that source, and a vanished file
loses its entry — fails on a run whose only change is a file removal: the
code deletes the removed file's records but returns at "No changes detected."
without rewriting `state.json`, so the stale entry `a.pdf ↦ [7]` survives
while no record with source `a.pdf` exists. -/
theorem c1_deletion_only_run_breaks_state_consistency :
    c1Run.stateFile = some c1PrevState ∧
    lookupState c1PrevState "a.pdf" = some ⟨1, [7]⟩ ∧
    sourceIds c1Run.store "a.pdf" = [] ∧
    c1Run.store = [⟨8, "b.pdf"⟩] := by decide

/-- C2: with two surviving chunks the claim predicts a single upsert pass of
`ceil(2/1000) = 1` batch touching each point once; because the batching loop
is nested inside the per-chunk loop, the code instead issues two upsert
calls, `[p0]` and then `[p0, p1]`, sending point 0 twice.  The id-assignment
and state-append parts of the claim do hold (`chunk_ids = [0, 1]`). -/
theorem c2_nested_upsert_loop_duplicates_points :
    c2Run.upsertCalls = [[⟨0, "a.pdf"⟩], [⟨0, "a.pdf"⟩, ⟨1, "a.pdf"⟩]] ∧
    c2Run.upsertCalls.length = 2 ∧
    c2Run.upsertCalls.flatten.count ⟨0, "a.pdf"⟩ = 2 ∧
    lookupState (c2Run.stateFile.getD []) "a.pdf" = some ⟨5, [0, 1]⟩ := by decide

/-- C8: on every failed login — unknown user or wrong password — the result
is `None` and the handler sends the one uniform error text; a hash
verification is performed exactly once in both cases, against the dummy hash
when the user does not exist. -/
theorem c8_auth_uniform_failure (verify : Str → Str → VerifyResult)
    (u : AuthUser) (p : Str) (hmis : verify u.password p = .mismatch) :
    (authenticate none verify p).user = none ∧
    (authenticate none verify p).verifyCalls = [(dummy_hash, p)] ∧
    login_response (authenticate none verify p).user = loginFailureText ∧
    (authenticate (some u) verify p).user = none ∧
    (authenticate (some u) verify p).verifyCalls = [(u.password, p)] ∧
    login_response (authenticate (some u) verify p).user = loginFailureText := by
  unfold authenticate login_response
  rcases hd : verify dummy_hash p with _ | _ | _ <;>
    simp [hd, hmis, loginFailureText]

/-- C8 witness at a concrete verifier that rejects everything. -/
theorem c8_auth_uniform_failure_witness :
    (authenticate none (fun _ _ => .mismatch) "pw".data).user = none ∧
    (authenticate none (fun _ _ => .mismatch) "pw".data).verifyCalls
      = [(dummy_hash, "pw".data)] ∧
    login_response (authenticate none (fun _ _ => .mismatch) "pw".data).user
      = loginFailureText ∧
    (authenticate (some ⟨"bob".data, "h0".data⟩) (fun _ _ => .mismatch)
      "pw".data).user = none ∧
    (authenticate (some ⟨"bob".data, "h0".data⟩) (fun _ _ => .mismatch)
      "pw".data).verifyCalls = [("h0".data, "pw".data)] ∧
    login_response ((authenticate (some ⟨"bob".data, "h0".data⟩)
      (fun _ _ => .mismatch) "pw".data).user) = loginFailureText :=
  c8_auth_uniform_failure (fun _ _ => .mismatch) ⟨"bob".data, "h0".data⟩
    "pw".data rfl

/-- C10: two facts stored in the same millisecond get the same point id
`int(time.time()*1000)`, so the second upsert replaces the first record:
only the later fact survives, and `add_to_history` draws its id from the
same clock expression. -/
theorem c10_same_millisecond_id_collision (t : Nat) (f1 f2 sid q : Str)
    (h : f1 ≠ f2) :
    store_user_facts (fun _ => t) [f1, f2] sid q [] = [⟨t, f2, sid, q⟩] ∧
    (∀ p ∈ store_user_facts (fun _ => t) [f1, f2] sid q [], p.fact ≠ f1) ∧
    add_to_history_id t = t := by
  have hrun : store_user_facts (fun _ => t) [f1, f2] sid q [] = [⟨t, f2, sid, q⟩] := by
    simp [store_user_facts, List.enum, upsertFact]
  refine ⟨hrun, ?_, rfl⟩
  intro p hp
  rw [hrun] at hp
  simp at hp
  rw [hp]
  simpa using h.symm

/-- C10 witness at a concrete millisecond and two distinct facts. -/
theorem c10_same_millisecond_id_collision_witness :
    store_user_facts (fun _ => 42) ["User likes tea".data, "User is Bob".data]
      "s1".data "q1".data []
      = [⟨42, "User is Bob".data, "s1".data, "q1".data⟩] ∧
    (∀ p ∈ store_user_facts (fun _ => 42)
        ["User likes tea".data, "User is Bob".data] "s1".data "q1".data [],
      p.fact ≠ "User likes tea".data) ∧
    add_to_history_id 42 = 42 :=
  c10_same_millisecond_id_collision 42 "User likes tea".data
    "User is Bob".data "s1".data "q1".data (by decide)

/-- The streaming loop's fold, split into the messages it emits and the
answer it accumulates. -/
theorem streamStep_foldl : ∀ (lines : List SSELine) (msgs : List QMsg) (ans : Str),
    lines.foldl streamStep (msgs, ans) = (msgs ++ emitMsgs lines, ans ++ concatData lines) := by
  intro lines
  induction lines with
  | nil => intro msgs ans; simp [emitMsgs, concatData]
  | cons l rest ih =>
    intro msgs ans
    cases l with
    | data c =>
      by_cases hc : c.isEmpty
      · have hce : c = [] := by simpa [List.isEmpty_iff] using hc
        simp [streamStep, hc, emitMsgs, concatData, ih, hce]
      · simp [streamStep, hc, emitMsgs, concatData, ih, List.append_assoc]
    | done => simp [streamStep, emitMsgs, concatData, ih, List.append_assoc]
    | other => simp [streamStep, emitMsgs, concatData, ih]

/-- Each `[DONE]` line yields exactly one `done=true` message; nothing else
does. -/
theorem emitMsgs_done_count : ∀ lines : List SSELine,
    (emitMsgs lines).countP (fun m => m.done) = lines.count SSELine.done := by
  intro lines
  induction lines with
  | nil => simp [emitMsgs]
  | cons l rest ih =>
    cases l with
    | data c =>
      by_cases hc : c.isEmpty <;>
        simp [emitMsgs, hc, ih, List.count_cons, List.countP_cons]
    | done => simp [emitMsgs, ih, List.count_cons, List.countP_cons]
    | other => simp [emitMsgs, ih, List.count_cons]

/-- C5: a stream that completes normally (exactly one `[DONE]` sentinel)
produces exactly one `done=true` `query_response`, and exactly one history
record is persisted, with content `"Q: " + query + "\nA: " + ` the
concatenation of all streamed fragments in arrival order. -/
theorem c5_stream_success (lines : List SSELine) (q : Str)
    (h : lines.count SSELine.done = 1) :
    ((stream_response lines none q).queryMsgs.countP (fun m => m.done)) = 1 ∧
    (stream_response lines none q).history =
      ["Q: ".data ++ q ++ "\nA: ".data ++ concatData lines] := by
  unfold stream_response
  rw [streamStep_foldl]
  refine ⟨?_, rfl⟩
  simpa [emitMsgs_done_count] using h

/-- C5 witness on a concrete two-fragment stream. -/
theorem c5_stream_success_witness :
    ((stream_response [.data "Hel".data, .data "lo".data, .done] none
        "hi".data).queryMsgs.countP (fun m => m.done)) = 1 ∧
    (stream_response [.data "Hel".data, .data "lo".data, .done] none
        "hi".data).history =
      ["Q: ".data ++ "hi".data ++ "\nA: ".data ++
        concatData [.data "Hel".data, .data "lo".data, .done]] :=
  c5_stream_success [.data "Hel".data, .data "lo".data, .done] "hi".data
    (by decide)

/-- C6: on a connection failure or timeout the handler still terminates the
stream with a final `query_response` whose content is the error text and
whose `done` is true, and the history commit still happens, recording the
partial answer accumulated before the failure. -/
theorem c6_error_path_commits_partial_answer (lines : List SSELine)
    (e q : Str) :
    (stream_response lines (some e) q).queryMsgs.getLast?
      = some ⟨errText e, true⟩ ∧
    (stream_response lines (some e) q).history =
      ["Q: ".data ++ q ++ "\nA: ".data ++ concatData lines] := by
  unfold stream_response
  rw [streamStep_foldl]
  exact ⟨List.getLast?_concat _, rfl⟩

/-- Stripping never lengthens a string. -/
theorem pyStrip_length_le (s : Str) : (pyStrip s).length ≤ s.length := by
  unfold pyStrip
  calc (((s.dropWhile pyIsSpace).reverse.dropWhile pyIsSpace).reverse).length
      = ((s.dropWhile pyIsSpace).reverse.dropWhile pyIsSpace).length := by
        simp
    _ ≤ (s.dropWhile pyIsSpace).reverse.length :=
        ((s.dropWhile pyIsSpace).reverse.dropWhile_sublist pyIsSpace).length_le
    _ = (s.dropWhile pyIsSpace).length := by simp
    _ ≤ s.length := (s.dropWhile_sublist pyIsSpace).length_le

/-- One iteration of the oversized-paragraph branch strictly shrinks the
paragraph, whichever case `splitMid` lands in. -/
theorem rest_length_lt (para : Str) (h : 1000 < para.length) :
    (pyStrip (pySliceFrom para (splitMid para))).length < para.length := by
  have hs := pyStrip_length_le (pySliceFrom para (splitMid para))
  rcases hidx : lastIdxOf ' ' (para.take 1000) with _ | i
  · have hmid : splitMid para = -1 := by simp [splitMid, hidx]
    rw [hmid] at hs ⊢
    have hlen : (pySliceFrom para (-1)).length
        = para.length - (para.length - min para.length 1) := by
      unfold pySliceFrom
      rw [if_neg (by norm_num)]
      simp
    have hm : min para.length 1 = 1 := min_eq_right (by omega)
    rw [hlen, hm] at hs
    omega
  · by_cases hi : i = 0
    · have hmid : splitMid para = 1000 := by simp [splitMid, hidx, hi]
      rw [hmid] at hs ⊢
      have hlen : (pySliceFrom para (1000 : Int)).length = para.length - 1000 := by
        unfold pySliceFrom
        rw [if_pos (by norm_num)]
        simp
      rw [hlen] at hs
      omega
    · have hmid : splitMid para = (i : Int) := by simp [splitMid, hidx, hi]
      rw [hmid] at hs ⊢
      have hlen : (pySliceFrom para ((i : Nat) : Int)).length
          = para.length - i := by
        unfold pySliceFrom
        rw [if_pos (Int.natCast_nonneg i)]
        simp
      rw [hlen] at hs
      have hi1 : 1 ≤ i := Nat.one_le_iff_ne_zero.mpr hi
      omega

/-- The fuelled packing loop is fuel-independent once the fuel exceeds the
paragraph length. -/
theorem procParaFuel_congr (title src : Str) :
    ∀ fuel1 fuel2 : Nat, ∀ chunks : List Chunk, ∀ para : Str,
      para.length < fuel1 → para.length < fuel2 →
      procParaFuel title src fuel1 chunks para
        = procParaFuel title src fuel2 chunks para := by
  intro fuel1
  induction fuel1 with
  | zero => intro fuel2 chunks para h1 _; omega
  | succ n ih =>
    intro fuel2 chunks para h1 h2
    cases fuel2 with
    | zero => omega
    | succ m =>
      by_cases hmin : MIN_LENGTH ≤ para.length
      · by_cases hbig : 1000 < para.length
        · have hd := rest_length_lt para hbig
          simp only [procParaFuel, if_pos hmin, if_pos hbig]
          exact ih m _ _ (by omega) (by omega)
        · simp only [procParaFuel, if_pos hmin, if_neg hbig]
      · simp only [procParaFuel, if_neg hmin]

/-- `para[:mid]` with the source's `mid` equals the three-case description:
last-space prefix, first 1000 characters, or all but the final character. -/
theorem sliceTo_splitMid (para : Str) :
    pySliceTo para (splitMid para) = describedSplitText para := by
  rcases hidx : lastIdxOf ' ' (para.take 1000) with _ | i
  · have hmid : splitMid para = -1 := by simp [splitMid, hidx]
    have hdesc : describedSplitText para = para.dropLast := by
      simp [describedSplitText, hidx]
    rw [hmid, hdesc, List.dropLast_eq_take]
    unfold pySliceTo
    rw [if_neg (by norm_num)]
    congr 1
    omega
  · by_cases hi : i = 0
    · have hmid : splitMid para = 1000 := by simp [splitMid, hidx, hi]
      have hdesc : describedSplitText para = para.take 1000 := by
        simp [describedSplitText, hidx, hi]
      rw [hmid, hdesc]
      unfold pySliceTo
      rw [if_pos (by norm_num)]
      rfl
    · have hmid : splitMid para = (i : Int) := by simp [splitMid, hidx, hi]
      have hdesc : describedSplitText para = para.take i := by
        simp [describedSplitText, hidx, hi]
      rw [hmid, hdesc]
      unfold pySliceTo
      rw [if_pos (Int.natCast_nonneg i)]
      simp

/-- C3 (amended): for a paragraph longer than 1000 characters the loop emits
one chunk and recurses on the stripped remainder; the emitted text is the
prefix up to the last space of the first 1000 characters only when that
space sits at a positive index — when there is no space the chunk is the
paragraph minus its final character, and when the only space sits at index 0
the chunk is the first 1000 characters. -/
theorem c3_oversized_paragraph_split (title src : Str) (chunks : List Chunk)
    (para : Str) (h : 1000 < para.length) :
    procPara title src chunks para =
      procPara title src
        (chunks ++ [⟨describedSplitText para, secOf title, src⟩])
        (pyStrip (pySliceFrom para (splitMid para))) := by
  have hmin : MIN_LENGTH ≤ para.length := by unfold MIN_LENGTH; omega
  have hd := rest_length_lt para h
  unfold procPara
  conv_lhs => rw [procParaFuel]
  rw [if_pos hmin, if_pos h]
  simp only [sliceTo_splitMid]
  exact procParaFuel_congr title src _ _ _ _ (by omega) (by omega)

/-- C3 witness: a 1001-character paragraph with no space at all. -/
theorem c3_oversized_paragraph_split_witness :
    procPara "T".data "f".data [] c3wPara =
      procPara "T".data "f".data
        [⟨describedSplitText c3wPara, secOf "T".data, "f".data⟩]
        (pyStrip (pySliceFrom c3wPara (splitMid c3wPara))) :=
  c3_oversized_paragraph_split "T".data "f".data [] c3wPara
    (by norm_num [c3wPara])

set_option maxRecDepth 20000 in
/-- C3 counterexample: for the paragraph whose only space sits at index 0,
the claim's split — the prefix ending at the last whitespace at or before
the 1000-character mark — is the empty prefix, but the code emits the first
1000 characters. -/
theorem c3_counterexample :
    (procPara "T".data "f".data [] c3Para).map (fun c => c.text)
      = [c3Para.take 1000] ∧
    claimedSplitText c3Para = some (c3Para.take 0) ∧
    c3Para.take 1000 ≠ c3Para.take 0 := by decide

/-- The last element of a list is a member. -/
theorem mem_of_getLast?_eq {l : List Chunk} {a : Chunk}
    (h : l.getLast? = some a) : a ∈ l := by
  have hm := List.mem_getLast?_eq_getLast (l := l) (x := a) (by rw [h]; rfl)
  rcases hm with ⟨hne, rfl⟩
  exact List.getLast_mem hne

/-- The packing loop preserves per-chunk length bounds whenever the incoming
paragraph is at most 1000 characters (so the split branch never fires). -/
theorem procPara_bounds (title src : Str) (chunks : List Chunk) (para : Str)
    (hc : ∀ c ∈ chunks, MIN_LENGTH ≤ c.text.length ∧ c.text.length ≤ 1000)
    (hp : para.length ≤ 1000) :
    ∀ c ∈ procPara title src chunks para,
      MIN_LENGTH ≤ c.text.length ∧ c.text.length ≤ 1000 := by
  unfold procPara
  by_cases hmin : MIN_LENGTH ≤ para.length
  · have hbig : ¬ 1000 < para.length := by omega
    rw [procParaFuel, if_pos hmin, if_neg hbig]
    rcases hlast : chunks.getLast? with _ | last
    · simp only
      intro c hcm
      rcases List.mem_append.mp hcm with hm | hm
      · exact hc c hm
      · have hce : c = ⟨para, secOf title, src⟩ := by simpa using hm
        rw [hce]
        exact ⟨hmin, hp⟩
    · simp only
      by_cases h6 : last.text.length < 600
      · rw [if_pos h6]
        by_cases hover : 1000 < (last.text ++ ' ' :: para).length
        · rw [if_pos hover]
          intro c hcm
          rcases List.mem_append.mp hcm with hm | hm
          · exact hc c hm
          · have hce : c = ⟨para, secOf title, src⟩ := by simpa using hm
            rw [hce]
            exact ⟨hmin, hp⟩
        · rw [if_neg hover]
          intro c hcm
          rcases List.mem_append.mp hcm with hm | hm
          · exact hc c ((List.dropLast_sublist chunks).subset hm)
          · have hce : c = ⟨last.text ++ ' ' :: para, last.sec, last.source⟩ := by
              simpa using hm
            have hlb := hc last (mem_of_getLast?_eq hlast)
            rw [hce]
            have hlen : (last.text ++ ' ' :: para).length
                = last.text.length + (para.length + 1) := by
              simp
            constructor
            · rw [hlen]; omega
            · rw [hlen] at hover ⊢; omega
      · rw [if_neg h6]
        intro c hcm
        rcases List.mem_append.mp hcm with hm | hm
        · exact hc c hm
        · have hce : c = ⟨para, secOf title, src⟩ := by simpa using hm
          rw [hce]
          exact ⟨hmin, hp⟩
  · rw [procParaFuel, if_neg hmin]
    exact hc

/-- One loop-body application preserves the bounds when the stripped
paragraph is at most 1000 characters. -/
theorem paraStep_bounds (title src : Str) (acc : List Chunk) (p : Str)
    (hacc : ∀ c ∈ acc, MIN_LENGTH ≤ c.text.length ∧ c.text.length ≤ 1000)
    (hp : (pyStrip p).length ≤ 1000) :
    ∀ c ∈ paraStep title src acc p,
      MIN_LENGTH ≤ c.text.length ∧ c.text.length ≤ 1000 := by
  unfold paraStep
  by_cases hcond : MIN_LENGTH ≤ (pyStrip p).length ∧
      ¬ ['-', ' '].isPrefixOf (pyStrip p)
  · rw [if_pos hcond]
    exact procPara_bounds title src acc (pyStrip p) hacc hp
  · rw [if_neg hcond]
    exact hacc

/-- Bounds are preserved across the paragraph fold of `process_section`. -/
theorem fold_para_bounds (title src : Str) :
    ∀ (paras : List Str) (acc : List Chunk),
      (∀ c ∈ acc, MIN_LENGTH ≤ c.text.length ∧ c.text.length ≤ 1000) →
      (∀ p ∈ paras, (pyStrip p).length ≤ 1000) →
      ∀ c ∈ paras.foldl (paraStep title src) acc,
        MIN_LENGTH ≤ c.text.length ∧ c.text.length ≤ 1000 := by
  intro paras
  induction paras with
  | nil => intro acc hacc _ c hcm; exact hacc c hcm
  | cons p rest ih =>
    intro acc hacc hp
    rw [List.foldl_cons]
    exact ih _
      (paraStep_bounds title src acc p hacc (hp p (by simp)))
      (fun p' hp' => hp p' (by simp [hp']))

/-- C4 (amended): whenever every rendered paragraph is at most 1000
characters, every chunk `process_section` returns — merge results included —
has length between `MIN_LENGTH` and 1000.  (The unrestricted claim fails:
an oversized paragraph's split chunks can leave `[MIN_LENGTH, 1000]` in
both directions, see the counterexample.) -/
theorem c4_bounds_amended (render : Str → Str) (sectionText fp : Str)
    (skips : List Str)
    (h : ∀ p ∈ splitParas (pyStrip (render sectionText)),
      (pyStrip p).length ≤ 1000) :
    ∀ c ∈ process_section render sectionText fp skips,
      MIN_LENGTH ≤ c.text.length ∧ c.text.length ≤ 1000 := by
  unfold process_section
  by_cases hskip : skips.contains
      (toLowerStr (pyStrip (sectionText.takeWhile (fun c => c ≠ '\n')))) = true
  · rw [if_pos hskip]
    intro c hcm
    simp at hcm
  · rw [if_neg hskip]
    by_cases hempty : (pyStrip (render sectionText)).isEmpty = true
    · rw [if_pos hempty]
      intro c hcm
      simp at hcm
    · rw [if_neg hempty]
      exact fold_para_bounds _ fp _ [] (by simp) h

set_option maxRecDepth 8000 in
/-- C4 witness: a single 150-character paragraph yields one in-bounds chunk. -/
theorem c4_bounds_amended_witness :
    MIN_LENGTH ≤ (Chunk.mk (List.replicate 150 'a') (secOf "T".data)
      "f".data).text.length ∧
    (Chunk.mk (List.replicate 150 'a') (secOf "T".data)
      "f".data).text.length ≤ 1000 :=
  c4_bounds_amended (fun _ => List.replicate 150 'a') "T".data "f".data []
    (by decide) (Chunk.mk (List.replicate 150 'a') (secOf "T".data) "f".data)
    (by decide)

set_option maxRecDepth 40000 in
/-- C4 counterexample: a section whose rendered prose is one 1105-character
paragraph with its last window space at index 2 produces a first chunk of
length 2 (below `MIN_LENGTH`, and not a final merge remainder since a second
chunk follows) and a second chunk of length 1101 (above 1000). -/
theorem c4_counterexample :
    (process_section c4Render "Title".data "f.pdf".data []).map
      (fun c => c.text.length) = [2, 1101] ∧
    2 < MIN_LENGTH ∧ (1000 : Nat) < 1101 := by decide

/-- Deduplication only drops elements. -/
theorem mem_dedupFirstAux :
    ∀ (seen l : List Str) (f : Str), f ∈ dedupFirstAux seen l → f ∈ l := by
  intro seen l
  induction l generalizing seen with
  | nil => intro f h; simp [dedupFirstAux] at h
  | cons x xs ih =>
    intro f h
    unfold dedupFirstAux at h
    by_cases hx : seen.contains x = true
    · rw [if_pos hx] at h
      exact List.mem_cons_of_mem _ (ih seen f h)
    · rw [if_neg hx] at h
      rcases List.mem_cons.mp h with rfl | hm
      · exact List.mem_cons_self _ _
      · exact List.mem_cons_of_mem _ (ih _ f hm)

/-- Every kept fact comes from the rule set's output. -/
theorem mem_of_mem_keptFacts {hp : Str → Bool} {facts : List Str} {f : Str}
    (h : f ∈ keptFacts hp facts) : f ∈ facts :=
  List.mem_of_mem_filter (mem_dedupFirstAux _ _ _ h)

/-- C7 (amended): assuming every rule-set fact starts with `"User "` (true of
every `facts.append` site in the cascade), the sentinel `["none"]` is
returned when the rule set produced nothing, the output is never empty,
`"none"` never appears alongside real facts, and facts are stored exactly
when the output contains a non-sentinel fact.  (The converse "`["none"]`
only if the rule set produced nothing" fails: suppression can delete every
produced fact, see the counterexample.) -/
theorem c7_sentinel_amended (hasPropn : Str → Bool) (facts : List Str)
    (huser : ∀ f ∈ facts, "User ".data.isPrefixOf f = true) :
    (facts = [] → finalize_facts hasPropn facts = ["none".data]) ∧
    finalize_facts hasPropn facts ≠ [] ∧
    ("none".data ∈ finalize_facts hasPropn facts →
      finalize_facts hasPropn facts = ["none".data]) ∧
    (store_decision (finalize_facts hasPropn facts) ↔
      ∃ f ∈ finalize_facts hasPropn facts, f ≠ "none".data) := by
  have hnone_facts : "none".data ∉ facts := by
    intro hmem
    exact absurd (huser _ hmem) (by decide)
  by_cases hke : (keptFacts hasPropn facts).isEmpty = true
  · have hout : finalize_facts hasPropn facts = ["none".data] := by
      unfold finalize_facts
      rw [if_pos hke]
    refine ⟨fun _ => hout, by rw [hout]; simp, fun _ => hout, ?_⟩
    rw [hout]
    constructor
    · intro hsd
      exact absurd rfl hsd.2
    · rintro ⟨f, hf, hne⟩
      simp at hf
      exact absurd hf hne
  · have hout : finalize_facts hasPropn facts = keptFacts hasPropn facts := by
      unfold finalize_facts
      rw [if_neg hke]
    have hkne : keptFacts hasPropn facts ≠ [] := by
      simpa [List.isEmpty_iff] using hke
    have hnonone : "none".data ∉ keptFacts hasPropn facts := fun h =>
      hnone_facts (mem_of_mem_keptFacts h)
    refine ⟨?_, by rw [hout]; exact hkne, ?_, ?_⟩
    · intro hfe
      rw [hfe] at hke
      exact absurd rfl hke
    · intro hnmem
      rw [hout] at hnmem
      exact absurd hnmem hnonone
    · rw [hout]
      constructor
      · intro _
        obtain ⟨f, hf⟩ := List.exists_mem_of_ne_nil _ hkne
        exact ⟨f, hf, fun he => hnonone (he ▸ hf)⟩
      · rintro ⟨f, hf, _⟩
        refine ⟨hkne, fun hkn => ?_⟩
        rw [hkn] at hnonone
        exact hnonone (by simp)

/-- C7 witness: one surviving fact, stored; and an empty rule-set output
yields the sentinel. -/
theorem c7_sentinel_amended_witness :
    ((["User likes tea".data] : List Str) = [] →
      finalize_facts (fun _ => false) ["User likes tea".data]
        = ["none".data]) ∧
    finalize_facts (fun _ => false) ["User likes tea".data] ≠ [] ∧
    ("none".data ∈ finalize_facts (fun _ => false) ["User likes tea".data] →
      finalize_facts (fun _ => false) ["User likes tea".data]
        = ["none".data]) ∧
    (store_decision (finalize_facts (fun _ => false) ["User likes tea".data]) ↔
      ∃ f ∈ finalize_facts (fun _ => false) ["User likes tea".data],
        f ≠ "none".data) :=
  c7_sentinel_amended (fun _ => false) ["User likes tea".data] (by decide)

/-- C7 counterexample: a rule-set output consisting of the single fact
`"User is refers as Bob"` (reachable when the parser tags a sibilant verb
`VBG` with an auxiliary present and attaches an `as`-preposition) both
triggers `has_is_name` and is itself suppressed, so the function returns
`["none"]` even though the rule set produced a fact — refuting "`["none"]`
exactly when the rule set produced no facts". -/
theorem c7_counterexample :
    finalize_facts (fun _ => true) ["User is refers as Bob".data]
      = ["none".data] ∧
    (["User is refers as Bob".data] : List Str) ≠ [] := by decide

/-- The sentence-count component is monotone. -/
theorem sentScore_mono {a b : Nat} (h : a ≤ b) : sentScore a ≤ sentScore b := by
  unfold sentScore
  split_ifs <;> first | omega | norm_num

/-- The word-count component is monotone. -/
theorem wordScore_mono {a b : Nat} (h : a ≤ b) : wordScore a ≤ wordScore b := by
  unfold wordScore
  split_ifs <;> first | omega | norm_num

/-- The noun/verb component is jointly monotone. -/
theorem nvScore_mono {n v n' v' : Nat} (hn : n ≤ n') (hv : v ≤ v') :
    nvScore n v ≤ nvScore n' v' := by
  unfold nvScore
  split_ifs <;> first | omega | norm_num

/-- The additive part of the score is monotone at equal text length. -/
theorem rawScore_mono (f g : ChunkFeatures) (hlen : g.textLen = f.textLen)
    (hs : g.sentences ≤ f.sentences) (hw : g.words ≤ f.words)
    (hn : g.nouns ≤ f.nouns) (hv : g.verbs ≤ f.verbs) :
    rawScore g ≤ rawScore f := by
  unfold rawScore
  have h1 := sentScore_mono hs
  have h2 := wordScore_mono hw
  have h3 := nvScore_mono hn hv
  rw [hlen]
  linarith

/-- Fewer words (same punctuation count) can only make the ratio penalty
condition easier to trigger. -/
theorem punctHeavy_mono (p : Nat) {wg wf : Nat} (hw : wg ≤ wf)
    (hf : punctHeavy p wf) : punctHeavy p wg := by
  unfold punctHeavy at *
  have hpos : (0 : ℚ) < ((max wg 1 : Nat) : ℚ) := by
    exact_mod_cast Nat.lt_of_lt_of_le Nat.zero_lt_one (le_max_right wg 1)
  have hmax : ((max wg 1 : Nat) : ℚ) ≤ ((max wf 1 : Nat) : ℚ) := by
    exact_mod_cast max_le_max hw (le_refl 1)
  calc (0.3 : ℚ) < (p : ℚ) / ((max wf 1 : Nat) : ℚ) := hf
    _ ≤ (p : ℚ) / ((max wg 1 : Nat) : ℚ) := by gcongr

/-- The punctuation penalty preserves monotonicity. -/
theorem afterPunct_mono (f g : ChunkFeatures) (hpunct : g.punct = f.punct)
    (hw : g.words ≤ f.words) (hraw : rawScore g ≤ rawScore f) :
    afterPunct g ≤ afterPunct f := by
  unfold afterPunct
  by_cases hg : punctHeavy g.punct g.words
  · rw [if_pos hg]
    by_cases hf2 : punctHeavy f.punct f.words
    · rw [if_pos hf2]
      linarith
    · rw [if_neg hf2]
      linarith
  · have hf2 : ¬ punctHeavy f.punct f.words := by
      intro hf2
      apply hg
      rw [hpunct]
      exact punctHeavy_mono f.punct hw hf2
    rw [if_neg hg, if_neg hf2]
    exact hraw

/-- The table-like cap preserves monotonicity at equal `'|'` presence. -/
theorem afterPipe_mono (f g : ChunkFeatures) (hpipe : g.hasPipe = f.hasPipe)
    (hw : g.words ≤ f.words) (hp : afterPunct g ≤ afterPunct f) :
    afterPipe g ≤ afterPipe f := by
  unfold afterPipe
  by_cases hcf : f.hasPipe = true ∧ f.words < 20
  · have hcg : g.hasPipe = true ∧ g.words < 20 :=
      ⟨by rw [hpipe]; exact hcf.1, by omega⟩
    rw [if_pos hcf, if_pos hcg]
    exact min_le_min hp le_rfl
  · rw [if_neg hcf]
    by_cases hcg : g.hasPipe = true ∧ g.words < 20
    · rw [if_pos hcg]
      exact le_trans (min_le_left _ _) hp
    · rw [if_neg hcg]
      exact hp

/-- The tiny-and-sparse cap preserves monotonicity at equal text length. -/
theorem afterSparse_mono (f g : ChunkFeatures) (hlen : g.textLen = f.textLen)
    (hw : g.words ≤ f.words) (hp : afterPipe g ≤ afterPipe f) :
    afterSparse g ≤ afterSparse f := by
  unfold afterSparse
  by_cases hcf : f.textLen < 100 ∧ f.words < 10
  · have hcg : g.textLen < 100 ∧ g.words < 10 := ⟨by omega, by omega⟩
    rw [if_pos hcf, if_pos hcg]
    exact min_le_min hp le_rfl
  · rw [if_neg hcf]
    by_cases hcg : g.textLen < 100 ∧ g.words < 10
    · rw [if_pos hcg]
      exact le_trans (min_le_left _ _) hp
    · rw [if_neg hcg]
      exact hp

/-- C9: `score_chunk` is monotone in content features — at equal text
length, punctuation count and `'|'` presence, more sentences, words, nouns
and verbs never lower the score — and every returned score lies in [0, 1]
(including the parser-failure value 0.0). -/
theorem c9_score_monotone_and_bounded (f g : ChunkFeatures)
    (pf : Option ChunkFeatures)
    (hlen : g.textLen = f.textLen) (hpunct : g.punct = f.punct)
    (hpipe : g.hasPipe = f.hasPipe)
    (hs : g.sentences ≤ f.sentences) (hw : g.words ≤ f.words)
    (hn : g.nouns ≤ f.nouns) (hv : g.verbs ≤ f.verbs) :
    score_chunk (some g) ≤ score_chunk (some f) ∧
    0 ≤ score_chunk pf ∧ score_chunk pf ≤ 1 := by
  refine ⟨?_, ?_, ?_⟩
  · show score_feats g ≤ score_feats f
    unfold score_feats
    exact min_le_min
      (max_le_max
        (afterSparse_mono f g hlen hw
          (afterPipe_mono f g hpipe hw
            (afterPunct_mono f g hpunct hw
              (rawScore_mono f g hlen hs hw hn hv))))
        le_rfl)
      le_rfl
  · cases pf with
    | none => simp [score_chunk]
    | some x =>
      show (0 : ℚ) ≤ score_feats x
      exact le_min (le_max_right _ _) (by norm_num)
  · cases pf with
    | none => simp [score_chunk]
    | some x =>
      show score_feats x ≤ 1
      exact min_le_right _ _

/-- C9 witness: a rich chunk against a sparse one of the same length. -/
theorem c9_score_monotone_and_bounded_witness :
    score_chunk (some ⟨1, 10, 2, 0, 0, 700, false⟩)
      ≤ score_chunk (some ⟨3, 50, 10, 5, 0, 700, false⟩) ∧
    0 ≤ score_chunk (some ⟨3, 50, 10, 5, 0, 700, false⟩) ∧
    score_chunk (some ⟨3, 50, 10, 5, 0, 700, false⟩) ≤ 1 :=
  c9_score_monotone_and_bounded ⟨3, 50, 10, 5, 0, 700, false⟩
    ⟨1, 10, 2, 0, 0, 700, false⟩ (some ⟨3, 50, 10, 5, 0, 700, false⟩)
    rfl rfl rfl (by norm_num) (by norm_num) (by norm_num) (by norm_num)

end HAL
